import Mathlib

/-!
# Verification of the Panopticon delegation control plane

A shallow embedding of the core data model and operations of the
Panopticon repository, together with theorems settling the specified
claims about them.

Modelling conventions:
* Rust `f64` values that the verified code only compares, adds,
  multiplies, divides, clamps or takes `min` of are modelled as `ℚ`
  (these operations are exact in the source for the verified
  properties; no rounding behaviour is relied upon).
* `f64::sqrt`, which is used only inside the adaptive learning rate of
  the reputation engine, is modelled as an abstract function
  `ℕ → ℚ` that is non-negative and exact at `0` (both facts hold for
  IEEE-754 `sqrt` on non-negative integer inputs).
* `Uuid` values are modelled as `ℕ`; timestamps (`DateTime<Utc>`,
  nanoseconds/seconds) as `ℤ`; JSON payloads as `String`.
* `&mut self` methods are modelled as functions returning the updated
  value (paired with the `Result` when the method is fallible), and
  calls to `Utc::now()` are modelled by an explicit `now` parameter.
-/

namespace Panopticon

/-! ## Task state machine (src/types/task.rs) -/

/-- Task state machine states, from `TaskState` in src/types/task.rs. -/
inductive TaskState where
  | Pending
  | Decomposing
  | AwaitingAssignment
  | Negotiating
  | Contracted
  | InProgress
  | AwaitingVerification
  | Completed
  | Failed
  | Disputed
deriving DecidableEq, Repr, BEq

/-- Events that drive task state transitions, from `TaskEvent` in src/types/task.rs. -/
inductive TaskEvent where
  | StartDecomposition
  | DecompositionComplete
  | SkipDecomposition
  | StartNegotiation
  | NegotiationComplete
  | ContractSigned
  | StartExecution
  | ExecutionComplete
  | VerificationPassed
  | VerificationFailed
  | DisputeRaised
  | DisputeResolved
  | TaskFailed
  | Retry
deriving DecidableEq, Repr, BEq

/-- The error taxonomy (`PanopticonError`), restricted to the variants
reachable from the embedded operations. -/
inductive PanopticonError where
  | InvalidStateTransition (from_ : TaskState) (event : TaskEvent)
  | CapabilityMismatch (name : String)
  | PermissionDenied (msg : String)
  | LedgerError (msg : String)
  | CircuitBreakerOpen (agentId : Nat)
deriving DecidableEq, Repr

/-- `TaskState::transition` from src/types/task.rs: attempt a state
transition given an event, returning the new state or an
`InvalidStateTransition` error. -/
def TaskState.transition (s : TaskState) (event : TaskEvent) :
    Except PanopticonError TaskState :=
  match s, event with
  | .Pending, .StartDecomposition => .ok .Decomposing
  | .Pending, .SkipDecomposition => .ok .AwaitingAssignment
  | .Decomposing, .DecompositionComplete => .ok .AwaitingAssignment
  | .AwaitingAssignment, .StartNegotiation => .ok .Negotiating
  | .Negotiating, .NegotiationComplete => .ok .Contracted
  | .Contracted, .StartExecution => .ok .InProgress
  | .InProgress, .ExecutionComplete => .ok .AwaitingVerification
  | .InProgress, .TaskFailed => .ok .Failed
  | .AwaitingVerification, .VerificationPassed => .ok .Completed
  | .AwaitingVerification, .VerificationFailed => .ok .Failed
  | .AwaitingVerification, .DisputeRaised => .ok .Disputed
  | .Disputed, .DisputeResolved => .ok .Completed
  | .Disputed, .TaskFailed => .ok .Failed
  | .Failed, .Retry => .ok .Pending
  | state, ev => .error (.InvalidStateTransition state ev)

/-- The fourteen-row transition table of spec section 4.1, written down
independently of the code: rows are (source state, event, target state). -/
def spec41Table : List (TaskState × TaskEvent × TaskState) :=
  [ (.Pending, .StartDecomposition, .Decomposing),
    (.Pending, .SkipDecomposition, .AwaitingAssignment),
    (.Decomposing, .DecompositionComplete, .AwaitingAssignment),
    (.AwaitingAssignment, .StartNegotiation, .Negotiating),
    (.Negotiating, .NegotiationComplete, .Contracted),
    (.Contracted, .StartExecution, .InProgress),
    (.InProgress, .ExecutionComplete, .AwaitingVerification),
    (.InProgress, .TaskFailed, .Failed),
    (.AwaitingVerification, .VerificationPassed, .Completed),
    (.AwaitingVerification, .VerificationFailed, .Failed),
    (.AwaitingVerification, .DisputeRaised, .Disputed),
    (.Disputed, .DisputeResolved, .Completed),
    (.Disputed, .TaskFailed, .Failed),
    (.Failed, .Retry, .Pending) ]

/-- Look up the target state of the spec's transition table for a
(state, event) pair, if any. -/
def spec41Lookup (s : TaskState) (e : TaskEvent) : Option TaskState :=
  (spec41Table.find? (fun row => row.1 == s && row.2.1 == e)).map (fun row => row.2.2)

/-! ## Ledger (crates/panopticon-ledger/src/entry.rs and memory.rs) -/

/-- Types of ledger entries, from `LedgerEntryKind` in
crates/panopticon-ledger/src/entry.rs. -/
inductive LedgerEntryKind where
  | TaskCreated
  | TaskStateChanged
  | AgentRegistered
  | DelegationRequested
  | BidSubmitted
  | ContractCreated
  | ContractSigned
  | CheckpointRecorded
  | VerificationResult
  | DisputeOpened
  | DisputeResolved
  | ReputationUpdated
  | PermissionGranted
  | PermissionRevoked
  | SecurityAlert
  | PaymentProcessed
deriving DecidableEq, Repr, BEq

/-- An immutable ledger entry, from `LedgerEntry` in
crates/panopticon-ledger/src/entry.rs. `Uuid` fields are modelled as
`ℕ`, the timestamp as `ℤ`, the JSON payload as `String`. -/
structure LedgerEntry where
  id : Nat
  kind : LedgerEntryKind
  timestamp : Int
  actor_id : Nat
  subject_id : Nat
  payload : String
  previous_hash : Option String
  hash : String
deriving DecidableEq, Repr

/-- The in-memory ledger, from `InMemoryLedger` in
crates/panopticon-ledger/src/memory.rs. The `DashMap` indices are
modelled as association lists (`id ↦ index`, `subject ↦ indices`). -/
structure InMemoryLedger where
  entries : List LedgerEntry
  index_by_id : List (Nat × Nat)
  index_by_subject : List (Nat × List Nat)
deriving Repr

/-- `InMemoryLedger::new`. -/
def InMemoryLedger.new : InMemoryLedger :=
  { entries := [], index_by_id := [], index_by_subject := [] }

/-- `DashMap::insert` on the id index: replace the binding if the key is
present, otherwise add it. -/
def insertIdIndex (m : List (Nat × Nat)) (key idx : Nat) : List (Nat × Nat) :=
  match m with
  | [] => [(key, idx)]
  | (k, v) :: rest =>
      if k == key then (key, idx) :: rest else (k, v) :: insertIdIndex rest key idx

/-- `DashMap::entry(..).or_default().push(idx)` on the subject index. -/
def pushSubjectIndex (m : List (Nat × List Nat)) (key idx : Nat) :
    List (Nat × List Nat) :=
  match m with
  | [] => [(key, [idx])]
  | (k, v) :: rest =>
      if k == key then (k, v ++ [idx]) :: rest else (k, v) :: pushSubjectIndex rest key idx

/-- `InMemoryLedger::append`: record the new entry's index in both
indices and push the entry at the end of the entry list. The append
never fails (the `Ok(())` result is omitted). -/
def InMemoryLedger.append (l : InMemoryLedger) (entry : LedgerEntry) : InMemoryLedger :=
  let idx := l.entries.length
  { entries := l.entries ++ [entry],
    index_by_id := insertIdIndex l.index_by_id entry.id idx,
    index_by_subject := pushSubjectIndex l.index_by_subject entry.subject_id idx }

/-- `InMemoryLedger::latest_hash`: hash of the last entry, if any. -/
def InMemoryLedger.latestHash (l : InMemoryLedger) : Option String :=
  l.entries.getLast?.map (fun e => e.hash)

/-- The body of the `verify_integrity` loop for indices `i > 0`: each
entry's `previous_hash` must equal the preceding entry's `hash`. -/
def chainFrom (prev : LedgerEntry) : List LedgerEntry → Bool
  | [] => true
  | e :: rest => (e.previous_hash == some prev.hash) && chainFrom e rest

/-- `InMemoryLedger::verify_integrity`: entry 0 must have no previous
hash; each later entry's `previous_hash` must equal the preceding
entry's `hash`. -/
def InMemoryLedger.verifyIntegrity (l : InMemoryLedger) : Bool :=
  match l.entries with
  | [] => true
  | e :: rest => (e.previous_hash == none) && chainFrom e rest

/-- Ledgers reachable from `InMemoryLedger::new` by a sequence of
`append` calls in which every appended entry carries
`previous_hash = latest_hash()` observed at the time of the append —
the calling convention the spec states for ledger writers. -/
inductive AppendChain : InMemoryLedger → Prop where
  | nil : AppendChain InMemoryLedger.new
  | snoc (l : InMemoryLedger) (e : LedgerEntry) :
      AppendChain l → e.previous_hash = l.latestHash → AppendChain (l.append e)

/-- A single entry whose `previous_hash` is a dangling hash value; the
code accepts appending it to an empty ledger. -/
def danglingEntry : LedgerEntry :=
  { id := 1, kind := .TaskCreated, timestamp := 0, actor_id := 2, subject_id := 3,
    payload := "p", previous_hash := some "deadbeef", hash := "abc123" }

/-- Two concretely chained entries used to witness the chained-append
invariant. -/
def chainedEntry0 : LedgerEntry :=
  { id := 10, kind := .TaskCreated, timestamp := 5, actor_id := 1, subject_id := 7,
    payload := "a", previous_hash := none, hash := "h0" }

def chainedEntry1 : LedgerEntry :=
  { id := 11, kind := .TaskStateChanged, timestamp := 6, actor_id := 1, subject_id := 7,
    payload := "b", previous_hash := some "h0", hash := "h1" }

/-- A concrete two-entry ledger built by chained appends. -/
def chainedLedgerEx : InMemoryLedger :=
  (InMemoryLedger.new.append chainedEntry0).append chainedEntry1

/-! ## Permission sets and attenuation
(crates/panopticon-types/src/agent.rs, crates/panopticon-permissions/src/attenuation.rs) -/

/-- Permission set for an agent, from `PermissionSet` in
crates/panopticon-types/src/agent.rs. `max_cost_budget : f64` is
modelled as `ℚ`. -/
structure PermissionSet where
  allowed_actions : List String
  max_delegation_depth : Nat
  max_cost_budget : ℚ
  allowed_data_classifications : List String
deriving DecidableEq, Repr

/-- `PermissionSet::is_subset_of`: every allowed action and data
classification is in the parent, and depth and budget do not exceed the
parent's. -/
def PermissionSet.is_subset_of (self parent : PermissionSet) : Bool :=
  decide (self.max_delegation_depth ≤ parent.max_delegation_depth) &&
    decide (self.max_cost_budget ≤ parent.max_cost_budget) &&
    self.allowed_actions.all (fun a => parent.allowed_actions.contains a) &&
    self.allowed_data_classifications.all
      (fun d => parent.allowed_data_classifications.contains d)

/-- `attenuate` from crates/panopticon-permissions/src/attenuation.rs:
attenuate privileges when re-delegating from parent to child. -/
def attenuate (parent child_request : PermissionSet) :
    Except PanopticonError PermissionSet :=
  if parent.max_delegation_depth = 0 then
    .error (.PermissionDenied "Parent has no delegation depth remaining")
  else
    let allowed_actions :=
      child_request.allowed_actions.filter (fun a => parent.allowed_actions.contains a)
    let allowed_data_classifications :=
      child_request.allowed_data_classifications.filter
        (fun d => parent.allowed_data_classifications.contains d)
    let max_delegation_depth := parent.max_delegation_depth - 1
    let max_cost_budget := min child_request.max_cost_budget parent.max_cost_budget
    let attenuated : PermissionSet :=
      { allowed_actions := allowed_actions,
        max_delegation_depth := max_delegation_depth,
        max_cost_budget := max_cost_budget,
        allowed_data_classifications := allowed_data_classifications }
    if ! attenuated.is_subset_of parent then
      .error (.PermissionDenied "Attenuated permissions are not a subset of parent")
    else
      .ok attenuated

/-- The parent permission set of end-to-end scenario S2. -/
def parentEx : PermissionSet :=
  { allowed_actions := ["read", "write", "execute"],
    max_delegation_depth := 3,
    max_cost_budget := 1000,
    allowed_data_classifications := ["public", "internal"] }

/-- The requested child permission set of scenario S2. -/
def requestedEx : PermissionSet :=
  { allowed_actions := ["read", "write", "delete"],
    max_delegation_depth := 5,
    max_cost_budget := 800,
    allowed_data_classifications := ["public", "secret", "internal"] }

/-- The expected attenuation result of scenario S2. -/
def attenuatedEx : PermissionSet :=
  { allowed_actions := ["read", "write"],
    max_delegation_depth := 2,
    max_cost_budget := 800,
    allowed_data_classifications := ["public", "internal"] }

/-! ## Tasks, agents and the permission evaluator
(src/types/task.rs, crates/panopticon-types/src/agent.rs,
src/permissions/level.rs, src/permissions/evaluator.rs) -/

/-- 11-dimensional task characteristics, from `TaskCharacteristics` in
src/types/task.rs; each `f64` dimension is modelled as `ℚ`. -/
structure TaskCharacteristics where
  complexity : ℚ
  criticality : ℚ
  uncertainty : ℚ
  verifiability : ℚ
  reversibility : ℚ
  time_sensitivity : ℚ
  resource_intensity : ℚ
  privacy_sensitivity : ℚ
  human_interaction : ℚ
  novelty : ℚ
  interdependency : ℚ
deriving DecidableEq, Repr

/-- `TaskCharacteristics::default`: every dimension is 0.5. -/
def TaskCharacteristics.default : TaskCharacteristics :=
  { complexity := 0.5, criticality := 0.5, uncertainty := 0.5, verifiability := 0.5,
    reversibility := 0.5, time_sensitivity := 0.5, resource_intensity := 0.5,
    privacy_sensitivity := 0.5, human_interaction := 0.5, novelty := 0.5,
    interdependency := 0.5 }

/-- A delegation task, from `Task` in src/types/task.rs. -/
structure Task where
  id : Nat
  parent_id : Option Nat
  name : String
  description : String
  state : TaskState
  characteristics : TaskCharacteristics
  required_capabilities : List String
  assigned_agent_id : Option Nat
  contract_id : Option Nat
  subtask_ids : List Nat
  created_at : Int
  updated_at : Int
  deadline : Option Int
  metadata : String
deriving DecidableEq, Repr

/-- `Task::apply_event` from src/types/task.rs, a `&mut self` method
modelled as returning the result together with the post-call task. The
assignment of the transitioned state and the `updated_at` bump happen
only after the `?` on `transition` succeeds. -/
def Task.applyEvent (task : Task) (event : TaskEvent) (now : Int) :
    Except PanopticonError Unit × Task :=
  match task.state.transition event with
  | .error e => (.error e, task)
  | .ok s => (.ok (), { task with state := s, updated_at := now })

/-- Trust level, from `TrustLevel` in crates/panopticon-types/src/agent.rs. -/
inductive TrustLevel where
  | Untrusted
  | Low
  | Medium
  | High
  | Full
deriving DecidableEq, Repr

/-- Multi-dimensional reputation score, from `ReputationScore` in
crates/panopticon-types/src/agent.rs. -/
structure ReputationScore where
  completion : ℚ
  quality : ℚ
  reliability : ℚ
  safety : ℚ
  behavioral : ℚ
deriving DecidableEq, Repr

/-- `ReputationScore::composite`: the weighted composite score. -/
def ReputationScore.composite (s : ReputationScore) : ℚ :=
  s.completion * 0.4 + s.quality * 0.3 + s.reliability * 0.15 + s.safety * 0.1 +
    s.behavioral * 0.05

/-- A capability of an agent, from `Capability` in
crates/panopticon-types/src/agent.rs. -/
structure Capability where
  name : String
  proficiency : ℚ
  certified : Bool
  last_verified : Option Int
deriving DecidableEq, Repr

/-- An agent, from `Agent` in crates/panopticon-types/src/agent.rs (the
capability registry is inlined as its list of capabilities). -/
structure Agent where
  id : Nat
  name : String
  capabilities : List Capability
  reputation : ReputationScore
  trust_level : TrustLevel
  permissions : PermissionSet
  available : Bool
  current_load : ℚ
  max_concurrent_tasks : Nat
  active_task_ids : List Nat
  registered_at : Int
  last_active_at : Int
deriving DecidableEq, Repr

/-- `Agent::has_capability`: some registered capability has the given name. -/
def Agent.has_capability (agent : Agent) (name : String) : Bool :=
  agent.capabilities.any (fun c => c.name == name)

/-- Approval level, from `ApprovalLevel` in src/permissions/level.rs. -/
inductive ApprovalLevel where
  | StandingPermission
  | ContextualPermission
  | JustInTimePermission
deriving DecidableEq, Repr

/-- The approval requirement computed for a task, from
`ApprovalRequirement` in src/permissions/level.rs. -/
structure ApprovalRequirement where
  level : ApprovalLevel
  required_approvers : Nat
  human_required : Bool
deriving DecidableEq, Repr

/-- `ApprovalRequirement::from_characteristics`: the criticality x
reversibility matrix of src/permissions/level.rs. -/
def ApprovalRequirement.from_characteristics (chars : TaskCharacteristics) :
    ApprovalRequirement :=
  let criticality := chars.criticality
  let reversibility := chars.reversibility
  if criticality ≥ 0.7 ∨ reversibility < 0.4 then
    { level := .JustInTimePermission, required_approvers := 2, human_required := true }
  else if criticality < 0.4 ∧ reversibility ≥ 0.6 then
    { level := .StandingPermission, required_approvers := 0, human_required := false }
  else
    { level := .ContextualPermission, required_approvers := 1, human_required := false }

/-- `PermissionEvaluator::adjust_for_trust` from
src/permissions/evaluator.rs: higher trust reduces requirements, but
JIT is never reduced for critical tasks (criticality >= 0.7). -/
def adjust_for_trust (base : ApprovalRequirement) (trust_level : TrustLevel)
    (characteristics : TaskCharacteristics) : ApprovalRequirement :=
  let is_critical := characteristics.criticality ≥ 0.7
  if is_critical ∧ base.level = .JustInTimePermission then
    base
  else
    match trust_level with
    | .Full =>
        match base.level with
        | .JustInTimePermission =>
            { level := .ContextualPermission, required_approvers := 1,
              human_required := false }
        | .ContextualPermission =>
            { level := .StandingPermission, required_approvers := 0,
              human_required := false }
        | .StandingPermission => base
    | .High =>
        match base.level with
        | .JustInTimePermission =>
            { level := .ContextualPermission, required_approvers := 1,
              human_required := false }
        | _ => base
    | .Medium | .Low | .Untrusted => base

/-- `PermissionEvaluator::check_permission` from
src/permissions/evaluator.rs. The two source `for` loops, each
returning on the first offending capability, are modelled with
`List.find?` over the same lists. -/
def check_permission (agent : Agent) (task : Task) :
    Except PanopticonError ApprovalRequirement :=
  match task.required_capabilities.find? (fun cap => ! agent.has_capability cap) with
  | some cap => .error (.CapabilityMismatch cap)
  | none =>
      match task.required_capabilities.find?
          (fun cap => ! agent.permissions.allowed_actions.contains cap) with
      | some cap =>
          .error (.PermissionDenied ("Agent lacks permission for action: " ++ cap))
      | none =>
          let base := ApprovalRequirement.from_characteristics task.characteristics
          .ok (adjust_for_trust base agent.trust_level task.characteristics)

/-- A concrete critical task (criticality 0.9) requiring "nlp". -/
def taskC5Ex : Task :=
  { id := 21, parent_id := none, name := "critical-task", description := "d",
    state := .Pending,
    characteristics := { TaskCharacteristics.default with criticality := 0.9 },
    required_capabilities := ["nlp"], assigned_agent_id := none, contract_id := none,
    subtask_ids := [], created_at := 0, updated_at := 0, deadline := none,
    metadata := "" }

/-- A concrete fully-trusted agent holding and being permitted "nlp". -/
def agentC5Ex : Agent :=
  { id := 31, name := "agent", capabilities := [⟨"nlp", 0.8, true, none⟩],
    reputation := ⟨0.9, 0.9, 0.9, 0.9, 0.9⟩, trust_level := .Full,
    permissions :=
      { allowed_actions := ["nlp"], max_delegation_depth := 3, max_cost_budget := 1000,
        allowed_data_classifications := ["public"] },
    available := true, current_load := 0, max_concurrent_tasks := 3,
    active_task_ids := [], registered_at := 0, last_active_at := 0 }

/-- A concrete task used to exercise `apply_event` on both branches. -/
def taskC7Ex : Task :=
  { id := 22, parent_id := none, name := "t", description := "d", state := .Pending,
    characteristics := TaskCharacteristics.default, required_capabilities := [],
    assigned_agent_id := none, contract_id := none, subtask_ids := [],
    created_at := 0, updated_at := 0, deadline := none, metadata := "" }

/-! ## Reputation engine (src/reputation/score.rs, src/reputation/engine.rs) -/

/-- The dimensions along which an agent is evaluated, from
`ReputationDimension` in src/reputation/score.rs. -/
inductive ReputationDimension where
  | Completion
  | Quality
  | Reliability
  | Safety
  | Behavioral
deriving DecidableEq, Repr

/-- A single dimension's score with its observation count, from
`DimensionScore` in src/reputation/score.rs. -/
structure DimensionScore where
  dimension : ReputationDimension
  score : ℚ
  observations : Nat
  last_updated : Int
deriving DecidableEq, Repr

/-- `DimensionScore::new`: initial score 0.5, no observations
(`Utc::now()` is the explicit `now`). -/
def DimensionScore.new (dimension : ReputationDimension) (now : Int) : DimensionScore :=
  { dimension := dimension, score := 0.5, observations := 0, last_updated := now }

/-- An observation recorded after a task completes, from
`ReputationObservation` in src/reputation/score.rs. -/
structure ReputationObservation where
  agent_id : Nat
  task_id : Nat
  dimension : ReputationDimension
  value : ℚ
  timestamp : Int
deriving DecidableEq, Repr

/-- Per-agent reputation state held by the engine, from
`AgentReputation` in src/reputation/score.rs. -/
structure AgentReputation where
  agent_id : Nat
  completion : DimensionScore
  quality : DimensionScore
  reliability : DimensionScore
  safety : DimensionScore
  behavioral : DimensionScore
  total_tasks : Nat
deriving DecidableEq, Repr

/-- `AgentReputation::new`. -/
def AgentReputation.new (agent_id : Nat) (now : Int) : AgentReputation :=
  { agent_id := agent_id,
    completion := DimensionScore.new .Completion now,
    quality := DimensionScore.new .Quality now,
    reliability := DimensionScore.new .Reliability now,
    safety := DimensionScore.new .Safety now,
    behavioral := DimensionScore.new .Behavioral now,
    total_tasks := 0 }

/-- `AgentReputation::dimension`: read the dimension score matching the
given dimension. -/
def AgentReputation.dimension (rep : AgentReputation) :
    ReputationDimension → DimensionScore
  | .Completion => rep.completion
  | .Quality => rep.quality
  | .Reliability => rep.reliability
  | .Safety => rep.safety
  | .Behavioral => rep.behavioral

/-- The write half of `AgentReputation::dimension_mut`: store a new
dimension score in the matching field. -/
def AgentReputation.setDimension (rep : AgentReputation) :
    ReputationDimension → DimensionScore → AgentReputation
  | .Completion, ds => { rep with completion := ds }
  | .Quality, ds => { rep with quality := ds }
  | .Reliability, ds => { rep with reliability := ds }
  | .Safety, ds => { rep with safety := ds }
  | .Behavioral, ds => { rep with behavioral := ds }

/-- `AgentReputation::to_reputation_score`. -/
def AgentReputation.to_reputation_score (rep : AgentReputation) : ReputationScore :=
  { completion := rep.completion.score, quality := rep.quality.score,
    reliability := rep.reliability.score, safety := rep.safety.score,
    behavioral := rep.behavioral.score }

/-- Rust `f64::clamp(lo, hi)`: `lo` if below, `hi` if above, the value
otherwise. -/
def clampQ (x lo hi : ℚ) : ℚ :=
  if x < lo then lo else if x > hi then hi else x

/-- `ReputationEngine::adaptive_alpha`:
`alpha = 1.0 / (1.0 + completed_tasks.sqrt())`, over an abstract model
`sqrtFn` of `f64::sqrt` on integer inputs. -/
def adaptive_alpha (sqrtFn : Nat → ℚ) (completed_tasks : Nat) : ℚ :=
  1 / (1 + sqrtFn completed_tasks)

/-- The score mutation block of `ReputationEngine::update_reputation`
(src/reputation/engine.rs lines 46-58): clamp the observed value, take
alpha from `total_tasks` before the increment, EMA-update and re-clamp
the dimension score, bump the dimension's observation count and
`total_tasks`. -/
def applyObservation (sqrtFn : Nat → ℚ) (rep : AgentReputation)
    (dimension : ReputationDimension) (value0 : ℚ) (timestamp : Int) :
    AgentReputation :=
  let value := clampQ value0 0 1
  let alpha := adaptive_alpha sqrtFn rep.total_tasks
  let dim := rep.dimension dimension
  let dim' := { dim with
    score := clampQ (alpha * value + (1 - alpha) * dim.score) 0 1,
    observations := dim.observations + 1,
    last_updated := timestamp }
  let rep' := rep.setDimension dimension dim'
  { rep' with total_tasks := rep.total_tasks + 1 }

/-- `DashMap::get` on the engine's score map (an association list). -/
def lookupScores (m : List (Nat × AgentReputation)) (id : Nat) :
    Option AgentReputation :=
  (m.find? (fun p => p.1 == id)).map (fun p => p.2)

/-- Writing an agent's mutated reputation back into the score map
(replace the existing binding, or add one). -/
def storeScores (m : List (Nat × AgentReputation)) (id : Nat)
    (rep : AgentReputation) : List (Nat × AgentReputation) :=
  match m with
  | [] => [(id, rep)]
  | p :: rest => if p.1 == id then (id, rep) :: rest else p :: storeScores rest id rep

/-- The in-memory half of `update_reputation`: ensure an entry exists
(inserting `AgentReputation::new` if missing), apply the observation,
and return the new map together with `to_reputation_score()` of the
updated entry. -/
def mutateScores (sqrtFn : Nat → ℚ) (m : List (Nat × AgentReputation))
    (obs : ReputationObservation) (now : Int) :
    List (Nat × AgentReputation) × ReputationScore :=
  let rep :=
    match lookupScores m obs.agent_id with
    | some r => r
    | none => AgentReputation.new obs.agent_id now
  let rep' := applyObservation sqrtFn rep obs.dimension obs.value obs.timestamp
  (storeScores m obs.agent_id rep', rep'.to_reputation_score)

/-- Debug rendering of a dimension, used in the hash input and payload. -/
def dimName : ReputationDimension → String
  | .Completion => "Completion"
  | .Quality => "Quality"
  | .Reliability => "Reliability"
  | .Safety => "Safety"
  | .Behavioral => "Behavioral"

/-- Debug rendering of an entry kind, used in the hash input. -/
def kindName : LedgerEntryKind → String
  | .TaskCreated => "TaskCreated"
  | .TaskStateChanged => "TaskStateChanged"
  | .AgentRegistered => "AgentRegistered"
  | .DelegationRequested => "DelegationRequested"
  | .BidSubmitted => "BidSubmitted"
  | .ContractCreated => "ContractCreated"
  | .ContractSigned => "ContractSigned"
  | .CheckpointRecorded => "CheckpointRecorded"
  | .VerificationResult => "VerificationResult"
  | .DisputeOpened => "DisputeOpened"
  | .DisputeResolved => "DisputeResolved"
  | .ReputationUpdated => "ReputationUpdated"
  | .PermissionGranted => "PermissionGranted"
  | .PermissionRevoked => "PermissionRevoked"
  | .SecurityAlert => "SecurityAlert"
  | .PaymentProcessed => "PaymentProcessed"

/-- `md5_like_hash` from crates/panopticon-ledger/src/entry.rs: an
FNV-style 128-bit fold (wrapping multiply, then xor with the byte). -/
def md5LikeHash (data : List Nat) : Nat :=
  data.foldl (fun h b => ((h * 0x100000001b3) % 2 ^ 128) ^^^ b) 0xcbf29ce484222325

/-- `LedgerEntry::new`: the `Uuid::new_v4()` and `Utc::now()` calls are
the explicit `id` and `now_nanos` parameters; the identifier renderings
inside the hash input are the renderings of the modelled values. -/
def LedgerEntry.new (id : Nat) (now_nanos : Int) (kind : LedgerEntryKind)
    (actor_id subject_id : Nat) (payload : String)
    (previous_hash : Option String) : LedgerEntry :=
  let hash_input :=
    toString id ++ ":" ++ toString now_nanos ++ ":" ++ kindName kind ++ ":" ++
      toString actor_id ++ ":" ++ toString subject_id ++ ":" ++ payload ++ ":" ++
      previous_hash.getD "genesis"
  let hash :=
    String.mk (Nat.toDigits 16
      (md5LikeHash (hash_input.toUTF8.toList.map (fun b => b.toNat))))
  { id := id, kind := kind, timestamp := now_nanos, actor_id := actor_id,
    subject_id := subject_id, payload := payload, previous_hash := previous_hash,
    hash := hash }

/-- The JSON payload of a `ReputationUpdated` entry, rendered as a
string: dimension, observed (unclamped) value, and the new score. -/
def reputationPayload (obs : ReputationObservation) (new_score : ReputationScore) :
    String :=
  dimName obs.dimension ++ "|" ++ toString obs.value ++ "|" ++
    toString new_score.completion ++ "," ++ toString new_score.quality ++ "," ++
    toString new_score.reliability ++ "," ++ toString new_score.safety ++ "," ++
    toString new_score.behavioral

/-- The ledger as seen by the reputation engine: the two `Ledger` trait
methods `update_reputation` calls, each allowed to fail (the `dyn
Ledger` of src/reputation/engine.rs). -/
structure LedgerModel (L : Type) where
  latestHash : L → Except String (Option String)
  append : L → LedgerEntry → Except String L

/-- The state touched by `update_reputation`: the engine's score map
and the ledger. -/
structure EngineState (L : Type) where
  scores : List (Nat × AgentReputation)
  ledger : L

/-- `ReputationEngine::update_reputation`: mutate the score map first,
then read `latest_hash`, build the `ReputationUpdated` entry and append
it; either ledger failure surfaces as `LedgerError` — with the score
map already mutated. -/
def updateReputation {L : Type} (lm : LedgerModel L) (sqrtFn : Nat → ℚ)
    (st : EngineState L) (obs : ReputationObservation) (entry_id : Nat)
    (now : Int) : Except PanopticonError ReputationScore × EngineState L :=
  let ms := mutateScores sqrtFn st.scores obs now
  match lm.latestHash st.ledger with
  | .error e => (.error (.LedgerError e), { scores := ms.1, ledger := st.ledger })
  | .ok previous_hash =>
      let payload := reputationPayload obs ms.2
      let entry :=
        LedgerEntry.new entry_id now .ReputationUpdated obs.agent_id obs.task_id
          payload previous_hash
      match lm.append st.ledger entry with
      | .error e => (.error (.LedgerError e), { scores := ms.1, ledger := st.ledger })
      | .ok ledger' => (.ok ms.2, { scores := ms.1, ledger := ledger' })

/-- A concrete model of `f64::sqrt` on integer inputs used by the
witnesses: the integer square root, which is non-negative and exact
at 0. -/
def natSqrtQ (n : Nat) : ℚ := (Nat.sqrt n : ℚ)

/-- A ledger model in which both operations fail. -/
def failLedgerModel : LedgerModel Unit :=
  { latestHash := fun _ => .error "disk full",
    append := fun _ _ => .error "disk full" }

/-- A concrete quality observation. -/
def obsC9Ex : ReputationObservation :=
  { agent_id := 5, task_id := 6, dimension := .Quality, value := 0.7, timestamp := 1 }

/-- A fresh engine over the failing ledger. -/
def engineStateEx : EngineState Unit := { scores := [], ledger := () }

/-! ## SLO checker (src/monitoring/slo.rs, checkpoint.rs) -/

/-- Comparison operator for SLO threshold checks, from `Comparison` in
src/monitoring/slo.rs. -/
inductive Comparison where
  | LessThan
  | GreaterThan
deriving DecidableEq, Repr

/-- A service-level objective definition, from `SloDefinition`. -/
structure SloDefinition where
  metric_name : String
  threshold : ℚ
  comparison : Comparison
  window_secs : Nat
deriving DecidableEq, Repr

/-- A checkpoint reported by an agent, from `Checkpoint` in
the monitoring crate's checkpoint.rs. -/
structure Checkpoint where
  task_id : Nat
  agent_id : Nat
  timestamp : Int
  progress_pct : ℚ
  resource_consumed : ℚ
  status_message : String
  metadata : String
deriving DecidableEq, Repr

/-- A detected SLO violation, from `SloViolation`. -/
structure SloViolation where
  definition : SloDefinition
  actual_value : ℚ
  detected_at : Int
deriving DecidableEq, Repr

/-- Checks checkpoints against a set of SLO definitions, from `SloChecker`. -/
structure SloChecker where
  definitions : List SloDefinition
deriving DecidableEq, Repr

/-- The metric lookup of `SloChecker::check`: the `match` on
`def.metric_name.as_str()` whose wildcard arm is `continue`. -/
def metricValue (name : String) (cp : Checkpoint) : Option ℚ :=
  if name == "progress_pct" then some cp.progress_pct
  else if name == "resource_consumed" then some cp.resource_consumed
  else none

/-- The violation test of `SloChecker::check`: `LessThan` is violated
when `actual >= threshold`, `GreaterThan` when `actual <= threshold`. -/
def violatedBy (c : Comparison) (actual threshold : ℚ) : Bool :=
  match c with
  | .LessThan => decide (actual ≥ threshold)
  | .GreaterThan => decide (actual ≤ threshold)

/-- The `for def in &self.definitions` loop of `SloChecker::check`,
pushing one violation per violated definition. -/
def checkLoop (cp : Checkpoint) (now : Int) : List SloDefinition → List SloViolation
  | [] => []
  | d :: rest =>
      match metricValue d.metric_name cp with
      | none => checkLoop cp now rest
      | some actual =>
          if violatedBy d.comparison actual d.threshold then
            { definition := d, actual_value := actual, detected_at := now } ::
              checkLoop cp now rest
          else checkLoop cp now rest

/-- `SloChecker::check` (the `Utc::now()` of each violation is the
explicit `now`). -/
def SloChecker.check (checker : SloChecker) (cp : Checkpoint) (now : Int) :
    List SloViolation :=
  checkLoop cp now checker.definitions

/-- The spec's wording of the metric value of a definition against a
checkpoint (defined when the metric is one of the two known names). -/
def specSloActual (cp : Checkpoint) (d : SloDefinition) : ℚ :=
  if d.metric_name = "progress_pct" then cp.progress_pct else cp.resource_consumed

/-- The spec's wording of "this definition is violated by this
checkpoint": the metric is looked up only among progress_pct and
resource_consumed, and the comparison semantics of section 4.9 hold. -/
def specSloViolated (cp : Checkpoint) (d : SloDefinition) : Bool :=
  decide (d.metric_name = "progress_pct" ∨ d.metric_name = "resource_consumed") &&
    violatedBy d.comparison (specSloActual cp d) d.threshold

/-- The S6 scenario SLO definition. -/
def s6Def : SloDefinition :=
  { metric_name := "resource_consumed", threshold := 50, comparison := .LessThan,
    window_secs := 300 }

/-- The S6 scenario checkpoint with resource_consumed = 100. -/
def s6Checkpoint : Checkpoint :=
  { task_id := 1, agent_id := 2, timestamp := 0, progress_pct := 0.5,
    resource_consumed := 100, status_message := "", metadata := "" }

/-! ## Circuit breakers (crates/panopticon-security/src/circuit_breaker.rs) -/

/-- State of a circuit breaker, from `CircuitBreakerState`. -/
inductive CircuitBreakerState where
  | Closed
  | Open
  | HalfOpen
deriving DecidableEq, Repr

/-- Circuit breaker for an individual agent, from `CircuitBreaker`. -/
structure CircuitBreaker where
  state : CircuitBreakerState
  failure_count : Nat
  threshold : Nat
  last_failure_at : Option Int
  cooldown_secs : Int
  reputation_threshold : ℚ
deriving DecidableEq, Repr

/-- `CircuitBreaker::new`. -/
def CircuitBreaker.new (threshold : Nat) (cooldown_secs : Int)
    (reputation_threshold : ℚ) : CircuitBreaker :=
  { state := .Closed, failure_count := 0, threshold := threshold,
    last_failure_at := none, cooldown_secs := cooldown_secs,
    reputation_threshold := reputation_threshold }

/-- `CircuitBreaker::check_cooldown`: transition Open → HalfOpen once
the cooldown has elapsed since the last failure. -/
def CircuitBreaker.check_cooldown (b : CircuitBreaker) (now : Int) : CircuitBreaker :=
  if b.state ≠ .Open then b
  else
    match b.last_failure_at with
    | none => b
    | some last_failure =>
        if now - last_failure ≥ b.cooldown_secs then { b with state := .HalfOpen } else b

/-- `CircuitBreaker::is_allowed`: Closed or HalfOpen. -/
def CircuitBreaker.is_allowed (b : CircuitBreaker) : Bool :=
  match b.state with
  | .Closed => true
  | .HalfOpen => true
  | .Open => false

/-- Registry of circuit breakers for all agents, from
`CircuitBreakerRegistry`; the `DashMap` is an association list. -/
structure CircuitBreakerRegistry where
  breakers : List (Nat × CircuitBreaker)
  default_threshold : Nat
  default_cooldown_secs : Int
  default_reputation_threshold : ℚ
deriving Repr

/-- `DashMap::get_mut` on the breaker map. -/
def lookupBreaker (m : List (Nat × CircuitBreaker)) (id : Nat) :
    Option CircuitBreaker :=
  (m.find? (fun p => p.1 == id)).map (fun p => p.2)

/-- Writing back a mutated breaker for an existing key. -/
def setBreaker (m : List (Nat × CircuitBreaker)) (id : Nat) (b : CircuitBreaker) :
    List (Nat × CircuitBreaker) :=
  m.map (fun p => if p.1 == id then (p.1, b) else p)

/-- `CircuitBreakerRegistry::check_agent`: if a breaker exists for the
agent, apply the cooldown transition and reject with
`CircuitBreakerOpen` unless it is allowed; an absent breaker means the
agent is allowed and the registry is untouched. -/
def CircuitBreakerRegistry.check_agent (reg : CircuitBreakerRegistry)
    (agent_id : Nat) (now : Int) :
    Except PanopticonError Unit × CircuitBreakerRegistry :=
  match lookupBreaker reg.breakers agent_id with
  | none => (.ok (), reg)
  | some b =>
      let b' := b.check_cooldown now
      let reg' := { reg with breakers := setBreaker reg.breakers agent_id b' }
      if b'.is_allowed then (.ok (), reg')
      else (.error (.CircuitBreakerOpen agent_id), reg')

/-- A registry with no breaker entries. -/
def emptyRegistryEx : CircuitBreakerRegistry :=
  { breakers := [], default_threshold := 3, default_cooldown_secs := 60,
    default_reputation_threshold := 0.3 }

/-! ## Bid evaluation (src/assignment/bid.rs) -/

/-- A bid submitted by an agent, from `Bid` in src/assignment/bid.rs. -/
structure Bid where
  agent_id : Nat
  task_id : Nat
  proposed_cost : ℚ
  proposed_duration_secs : Nat
  confidence_score : ℚ
  created_at : Int
deriving DecidableEq, Repr

/-- A scored bid produced by the evaluator, from `ScoredBid`. -/
structure ScoredBid where
  bid : Bid
  total_score : ℚ
  cost_score : ℚ
  quality_score : ℚ
  confidence_component : ℚ
deriving DecidableEq, Repr

/-- Evaluates and ranks bids, from `BidEvaluator`. -/
structure BidEvaluator where
  cost_weight : ℚ
  quality_weight : ℚ
  confidence_weight : ℚ
deriving DecidableEq, Repr

/-- `BidEvaluator::default`: weights 0.4 / 0.4 / 0.2. -/
def BidEvaluator.default : BidEvaluator :=
  { cost_weight := 0.4, quality_weight := 0.4, confidence_weight := 0.2 }

/-- The scoring closure inside `BidEvaluator::evaluate`. -/
def scoreBid (ev : BidEvaluator) (max_cost : ℚ) (quality_predictor : Nat → ℚ)
    (b : Bid) : ScoredBid :=
  let cost_score := if max_cost > 0 then 1 - b.proposed_cost / max_cost else 0
  let quality_score := quality_predictor b.agent_id
  let confidence_component := b.confidence_score
  let total_score := ev.cost_weight * cost_score + ev.quality_weight * quality_score +
    ev.confidence_weight * confidence_component
  { bid := b, total_score := total_score, cost_score := cost_score,
    quality_score := quality_score, confidence_component := confidence_component }

/-- The ordering used by the `sort_by` call of `evaluate`: `a` may come
before `b` when `b.total_score <= a.total_score` (descending by total
score). -/
def bidGE (a b : ScoredBid) : Prop := b.total_score ≤ a.total_score

instance : DecidableRel bidGE :=
  fun a b => inferInstanceAs (Decidable (b.total_score ≤ a.total_score))

instance : IsTotal ScoredBid bidGE :=
  ⟨fun a b => (le_total b.total_score a.total_score).imp id id⟩

instance : IsTrans ScoredBid bidGE :=
  ⟨fun _ _ _ hab hbc => le_trans hbc hab⟩

/-- `BidEvaluator::evaluate`: keep the bids within budget, score each,
and sort descending by total score. Rust's `sort_by` is a stable sort,
modelled by the stable `List.insertionSort` with the same comparator. -/
def BidEvaluator.evaluate (ev : BidEvaluator) (bids : List Bid) (max_cost : ℚ)
    (quality_predictor : Nat → ℚ) : List ScoredBid :=
  let scored := (bids.filter (fun b => decide (b.proposed_cost ≤ max_cost))).map
    (scoreBid ev max_cost quality_predictor)
  List.insertionSort bidGE scored

/-- A cheap in-budget bid. -/
def bidCheapEx : Bid :=
  { agent_id := 1, task_id := 9, proposed_cost := 90, proposed_duration_secs := 3600,
    confidence_score := 0.9, created_at := 0 }

/-- A cheaper in-budget bid. -/
def bidCheaperEx : Bid :=
  { agent_id := 2, task_id := 9, proposed_cost := 30, proposed_duration_secs := 7200,
    confidence_score := 0.7, created_at := 1 }

/-- A bid over the 100-unit budget. -/
def bidOverEx : Bid :=
  { agent_id := 3, task_id := 9, proposed_cost := 150, proposed_duration_secs := 100,
    confidence_score := 0.9, created_at := 2 }

/-- A constant quality predictor. -/
def qualityEx : Nat → ℚ := fun _ => 0.8

end Panopticon

namespace Panopticon

/-- Adjacency of the hash chain: the later entry points back at the
hash of the earlier one. -/
def chainRel (a b : LedgerEntry) : Prop := b.previous_hash = some a.hash

theorem chainFrom_eq_chain (prev : LedgerEntry) (es : List LedgerEntry) :
    chainFrom prev es = true ↔ List.Chain chainRel prev es := by
  induction es generalizing prev with
  | nil => simp [chainFrom]
  | cons e rest ih =>
      simp [chainFrom, List.chain_cons, ih, chainRel]

theorem verifyIntegrity_iff (l : InMemoryLedger) :
    l.verifyIntegrity = true ↔
      (∀ x ∈ l.entries.head?, x.previous_hash = none) ∧
        l.entries.Chain' chainRel := by
  cases h : l.entries with
  | nil => simp [InMemoryLedger.verifyIntegrity, h]
  | cons e rest =>
      simp [InMemoryLedger.verifyIntegrity, h, chainFrom_eq_chain, List.Chain']

theorem appendChain_invariant (l : InMemoryLedger) (h : AppendChain l) :
    (∀ x ∈ l.entries.head?, x.previous_hash = none) ∧
      l.entries.Chain' chainRel := by
  induction h with
  | nil => simp [InMemoryLedger.new]
  | snoc l e hl hprev ih =>
      obtain ⟨hhead, hchain⟩ := ih
      constructor
      · intro x hx
        cases hes : l.entries with
        | nil =>
            rw [InMemoryLedger.append] at hx
            simp [hes] at hx
            subst hx
            simpa [InMemoryLedger.latestHash, hes] using hprev
        | cons a rest =>
            rw [InMemoryLedger.append] at hx
            simp [hes] at hx
            subst hx
            exact hhead a (by simp [hes])
      · rw [InMemoryLedger.append]
        refine List.chain'_append.2 ⟨hchain, List.chain'_singleton e, ?_⟩
        intro x hx y hy
        simp at hy
        subst hy
        have : e.previous_hash = (l.entries.getLast?).map (fun e => e.hash) := hprev
        rw [hx] at this
        simpa [chainRel] using this

theorem head_entry_of_head? {P : LedgerEntry → Prop} :
    ∀ (es : List LedgerEntry), (∀ x ∈ es.head?, P x) →
      ∀ (h0 : 0 < es.length), P (es.get ⟨0, h0⟩)
  | [], _, h0 => absurd h0 (by simp)
  | _ :: _, hh, _ => hh _ rfl

/-- C1 (counterexample): `InMemoryLedger::append` does not validate the
appended entry against the current chain, so a single append of a
well-formed entry whose `previous_hash` is a dangling value already
makes `verify_integrity()` return false. -/
theorem c1_any_append_counterexample :
    (InMemoryLedger.new.append danglingEntry).verifyIntegrity = false := by
  decide

/-- C1 (amended): for every ledger obtained from `InMemoryLedger::new`
by a sequence of `append` calls in which each appended entry carries
`previous_hash = latest_hash()` observed at the time of the append (the
calling convention the spec requires of writers), `verify_integrity()`
returns true, consecutive stored entries satisfy
`e[i+1].previous_hash = Some(e[i].hash)`, and entry 0 has
`previous_hash = None`. -/
theorem c1_chained_append_integrity (l : InMemoryLedger) (h : AppendChain l) :
    l.verifyIntegrity = true ∧
      (∀ (i : ℕ) (hi : i + 1 < l.entries.length),
        (l.entries.get ⟨i + 1, hi⟩).previous_hash =
          some ((l.entries.get ⟨i, Nat.lt_of_succ_lt hi⟩).hash)) ∧
      (∀ (h0 : 0 < l.entries.length),
        (l.entries.get ⟨0, h0⟩).previous_hash = none) := by
  obtain ⟨hhead, hchain⟩ := appendChain_invariant l h
  refine ⟨(verifyIntegrity_iff l).2 ⟨hhead, hchain⟩, ?_, ?_⟩
  · intro i hi
    exact List.chain'_iff_get.1 hchain i (by omega)
  · exact head_entry_of_head? l.entries hhead

theorem c1_chained_append_integrity_witness :
    chainedLedgerEx.verifyIntegrity = true :=
  (c1_chained_append_integrity chainedLedgerEx
    (AppendChain.snoc _ chainedEntry1
      (AppendChain.snoc _ chainedEntry0 AppendChain.nil (by decide))
      (by decide))).1

theorem attenuated_is_subset (p r : PermissionSet) :
    (PermissionSet.is_subset_of
      { allowed_actions := r.allowed_actions.filter (fun a => p.allowed_actions.contains a),
        max_delegation_depth := p.max_delegation_depth - 1,
        max_cost_budget := min r.max_cost_budget p.max_cost_budget,
        allowed_data_classifications :=
          r.allowed_data_classifications.filter
            (fun d => p.allowed_data_classifications.contains d) } p) = true := by
  simp only [PermissionSet.is_subset_of, Bool.and_eq_true, decide_eq_true_eq,
    List.all_eq_true]
  refine ⟨⟨⟨Nat.sub_le _ _, min_le_right _ _⟩, ?_⟩, ?_⟩
  · intro a ha
    exact (List.mem_filter.1 ha).2
  · intro d hd
    exact (List.mem_filter.1 hd).2

/-- C3: `attenuate(parent, requested)` fails with `PermissionDenied`
when `parent.max_delegation_depth = 0`; otherwise it returns `Ok` with
the intersected actions and classifications, depth reduced by one, the
minimum of the two budgets, and a result that satisfies
`is_subset_of(parent)`. -/
theorem c3_attenuate_spec (p r : PermissionSet) :
    (p.max_delegation_depth = 0 →
      attenuate p r =
        .error (.PermissionDenied "Parent has no delegation depth remaining")) ∧
    (0 < p.max_delegation_depth →
      attenuate p r = .ok
        { allowed_actions := r.allowed_actions.filter (fun a => p.allowed_actions.contains a),
          max_delegation_depth := p.max_delegation_depth - 1,
          max_cost_budget := min r.max_cost_budget p.max_cost_budget,
          allowed_data_classifications :=
            r.allowed_data_classifications.filter
              (fun d => p.allowed_data_classifications.contains d) } ∧
      ∀ res, attenuate p r = .ok res → res.is_subset_of p = true) := by
  constructor
  · intro h0
    simp [attenuate, h0]
  · intro hpos
    have hne : ¬ p.max_delegation_depth = 0 := by omega
    have hsub := attenuated_is_subset p r
    have hok : attenuate p r = .ok
        { allowed_actions := r.allowed_actions.filter (fun a => p.allowed_actions.contains a),
          max_delegation_depth := p.max_delegation_depth - 1,
          max_cost_budget := min r.max_cost_budget p.max_cost_budget,
          allowed_data_classifications :=
            r.allowed_data_classifications.filter
              (fun d => p.allowed_data_classifications.contains d) } := by
      simp only [attenuate, if_neg hne, hsub, Bool.not_true, Bool.false_eq_true,
        if_false]
    refine ⟨hok, ?_⟩
    intro res hres
    rw [hok] at hres
    cases hres
    exact attenuated_is_subset p r

theorem c3_attenuate_spec_witness :
    0 < parentEx.max_delegation_depth ∧
      attenuate parentEx requestedEx = .ok attenuatedEx ∧
      attenuatedEx.is_subset_of parentEx = true := by
  have h := (c3_attenuate_spec parentEx requestedEx).2 (by decide)
  have hval : attenuate parentEx requestedEx = .ok attenuatedEx := by
    rw [h.1]
    congr 1
  exact ⟨by decide, hval, h.2 attenuatedEx hval⟩

/-- C5: for every task with criticality >= 0.7 and every agent passing
the capability and allowed-action checks, `check_permission` returns
the JustInTime requirement regardless of the agent's trust level; the
base matrix yields JustInTime at exactly criticality = 0.7, and
Contextual (not JustInTime) at exactly reversibility = 0.4 when
criticality < 0.7. -/
theorem c5_critical_always_jit :
    (∀ (agent : Agent) (task : Task),
      (0.7 : ℚ) ≤ task.characteristics.criticality →
      (∀ cap ∈ task.required_capabilities, agent.has_capability cap = true) →
      (∀ cap ∈ task.required_capabilities,
        agent.permissions.allowed_actions.contains cap = true) →
      check_permission agent task =
        .ok { level := .JustInTimePermission, required_approvers := 2,
              human_required := true }) ∧
    (∀ chars : TaskCharacteristics, chars.criticality = 0.7 →
      (ApprovalRequirement.from_characteristics chars).level = .JustInTimePermission) ∧
    (∀ chars : TaskCharacteristics, chars.reversibility = 0.4 →
      chars.criticality < 0.7 →
      (ApprovalRequirement.from_characteristics chars).level =
        .ContextualPermission) := by
  refine ⟨?_, ?_, ?_⟩
  · intro agent task hcrit hcap hact
    have h1 : task.required_capabilities.find?
        (fun cap => ! agent.has_capability cap) = none := by
      rw [List.find?_eq_none]
      intro cap hc
      simp [hcap cap hc]
    have h2 : task.required_capabilities.find?
        (fun cap => ! agent.permissions.allowed_actions.contains cap) = none := by
      rw [List.find?_eq_none]
      intro cap hc
      simpa using hact cap hc
    have hbase : ApprovalRequirement.from_characteristics task.characteristics =
        { level := .JustInTimePermission, required_approvers := 2,
          human_required := true } := by
      simp only [ApprovalRequirement.from_characteristics]
      rw [if_pos (Or.inl hcrit)]
    have hadj : adjust_for_trust
        { level := .JustInTimePermission, required_approvers := 2,
          human_required := true } agent.trust_level task.characteristics =
        { level := .JustInTimePermission, required_approvers := 2,
          human_required := true } := by
      simp only [adjust_for_trust]
      rw [if_pos ⟨hcrit, trivial⟩]
    simp only [check_permission, h1, h2, hbase, hadj]
  · intro chars h
    simp only [ApprovalRequirement.from_characteristics]
    rw [if_pos (Or.inl (le_of_eq h.symm))]
  · intro chars hr hc
    simp only [ApprovalRequirement.from_characteristics]
    rw [if_neg, if_neg]
    · rintro ⟨-, h6⟩
      rw [hr] at h6
      norm_num at h6
    · rintro (h | h)
      · exact absurd h (not_le.2 hc)
      · rw [hr] at h
        norm_num at h

theorem c5_critical_always_jit_witness :
    check_permission agentC5Ex taskC5Ex =
        .ok { level := .JustInTimePermission, required_approvers := 2,
              human_required := true } ∧
      (ApprovalRequirement.from_characteristics
        { TaskCharacteristics.default with criticality := 0.7 }).level =
        .JustInTimePermission ∧
      (ApprovalRequirement.from_characteristics
        { TaskCharacteristics.default with reversibility := 0.4 }).level =
        .ContextualPermission := by
  refine ⟨c5_critical_always_jit.1 agentC5Ex taskC5Ex (by norm_num [taskC5Ex])
      (by decide) (by decide), ?_, ?_⟩
  · exact c5_critical_always_jit.2.1 _ rfl
  · exact c5_critical_always_jit.2.2 _ rfl (by norm_num [TaskCharacteristics.default])

theorem transition_error_shape (s : TaskState) (ev : TaskEvent) (e : PanopticonError)
    (h : s.transition ev = .error e) : e = .InvalidStateTransition s ev := by
  cases s <;> cases ev <;> simp [TaskState.transition] at h <;> exact h.symm

/-- C7: `Task::apply_event` leaves the task entirely unchanged and
returns `InvalidStateTransition{from, event}` when the transition is
rejected; when accepted it sets `state` to the table's target, bumps
`updated_at`, and changes no other field. -/
theorem c7_apply_event_mutation (task : Task) (event : TaskEvent) (now : Int) :
    (∀ e, task.state.transition event = .error e →
      task.applyEvent event now =
        (.error (.InvalidStateTransition task.state event), task)) ∧
    (∀ s, task.state.transition event = .ok s →
      task.applyEvent event now =
        (.ok (), { task with state := s, updated_at := now })) := by
  constructor
  · intro e he
    have hshape := transition_error_shape task.state event e he
    subst hshape
    simp [Task.applyEvent, he]
  · intro s hs
    simp [Task.applyEvent, hs]

theorem c7_apply_event_mutation_witness :
    taskC7Ex.applyEvent .VerificationPassed 99 =
        (.error (.InvalidStateTransition .Pending .VerificationPassed), taskC7Ex) ∧
      taskC7Ex.applyEvent .SkipDecomposition 99 =
        (.ok (), { taskC7Ex with state := .AwaitingAssignment, updated_at := 99 }) :=
  ⟨(c7_apply_event_mutation taskC7Ex .VerificationPassed 99).1
      (.InvalidStateTransition .Pending .VerificationPassed) rfl,
    (c7_apply_event_mutation taskC7Ex .SkipDecomposition 99).2 .AwaitingAssignment rfl⟩

theorem checkLoop_eq_filter_map (cp : Checkpoint) (now : Int) :
    ∀ defs : List SloDefinition,
      checkLoop cp now defs =
        (defs.filter (specSloViolated cp)).map
          (fun d => { definition := d, actual_value := specSloActual cp d,
                      detected_at := now }) := by
  intro defs
  induction defs with
  | nil => rfl
  | cons d rest ih =>
      by_cases h1 : d.metric_name = "progress_pct"
      · have hm : metricValue d.metric_name cp = some cp.progress_pct := by
          simp [metricValue, h1]
        have ha : specSloActual cp d = cp.progress_pct := by
          simp [specSloActual, h1]
        have hsv : specSloViolated cp d =
            violatedBy d.comparison cp.progress_pct d.threshold := by
          simp [specSloViolated, h1, ha]
        by_cases hv : violatedBy d.comparison cp.progress_pct d.threshold = true
        · simp [checkLoop, hm, hv, List.filter_cons, hsv, ih, ha]
        · have hv' : violatedBy d.comparison cp.progress_pct d.threshold = false :=
            Bool.eq_false_iff.2 hv
          simp [checkLoop, hm, hv', List.filter_cons, hsv, ih]
      · by_cases h2 : d.metric_name = "resource_consumed"
        · have hm : metricValue d.metric_name cp = some cp.resource_consumed := by
            simp [metricValue, h1, h2]
          have ha : specSloActual cp d = cp.resource_consumed := by
            simp [specSloActual, h1]
          have hsv : specSloViolated cp d =
              violatedBy d.comparison cp.resource_consumed d.threshold := by
            simp [specSloViolated, h1, h2, ha]
          by_cases hv : violatedBy d.comparison cp.resource_consumed d.threshold = true
          · simp [checkLoop, hm, hv, List.filter_cons, hsv, ih, ha]
          · have hv' : violatedBy d.comparison cp.resource_consumed d.threshold = false :=
              Bool.eq_false_iff.2 hv
            simp [checkLoop, hm, hv', List.filter_cons, hsv, ih]
        · have hm : metricValue d.metric_name cp = none := by
            simp [metricValue, h1, h2]
          have hsv : specSloViolated cp d = false := by
            simp [specSloViolated, h1, h2]
          simp [checkLoop, hm, List.filter_cons, hsv, ih]

/-- C8: `SloChecker::check` emits exactly one violation per violated
definition, in definition order, each carrying the metric's actual
value; `LessThan` is violated iff actual >= threshold, `GreaterThan`
iff actual <= threshold, the metric is looked up only among
progress_pct and resource_consumed, and any other metric name produces
no violation. The S6 scenario (LessThan, threshold 50, on
resource_consumed = 100) yields exactly one violation with actual 100. -/
theorem c8_slo_check_spec :
    (∀ (checker : SloChecker) (cp : Checkpoint) (now : Int),
      checker.check cp now =
        (checker.definitions.filter (specSloViolated cp)).map
          (fun d => { definition := d, actual_value := specSloActual cp d,
                      detected_at := now })) ∧
    (∀ (d : SloDefinition) (cp : Checkpoint) (now : Int),
      d.metric_name ≠ "progress_pct" → d.metric_name ≠ "resource_consumed" →
      SloChecker.check ⟨[d]⟩ cp now = []) ∧
    SloChecker.check ⟨[s6Def]⟩ s6Checkpoint 7 =
      [{ definition := s6Def, actual_value := 100, detected_at := 7 }] := by
  refine ⟨?_, ?_, by decide⟩
  · intro checker cp now
    exact checkLoop_eq_filter_map cp now checker.definitions
  · intro d cp now h1 h2
    simp [SloChecker.check, checkLoop, metricValue, h1, h2]

theorem c8_slo_check_spec_witness :
    SloChecker.check ⟨[s6Def]⟩ s6Checkpoint 7 =
        (([s6Def].filter (specSloViolated s6Checkpoint)).map
          (fun d => { definition := d, actual_value := specSloActual s6Checkpoint d,
                      detected_at := 7 })) ∧
      SloChecker.check ⟨[{ s6Def with metric_name := "unknown_metric" }]⟩
        s6Checkpoint 7 = [] :=
  ⟨c8_slo_check_spec.1 ⟨[s6Def]⟩ s6Checkpoint 7,
    c8_slo_check_spec.2.1 { s6Def with metric_name := "unknown_metric" }
      s6Checkpoint 7 (by decide) (by decide)⟩

/-- C10: `CircuitBreakerRegistry::check_agent` on an agent id with no
breaker entry returns `Ok(())` and leaves the registry unchanged — an
unknown agent is always allowed and no entry is created by the check. -/
theorem c10_unknown_agent_allowed (reg : CircuitBreakerRegistry) (agent_id : Nat)
    (now : Int) (h : lookupBreaker reg.breakers agent_id = none) :
    reg.check_agent agent_id now = (.ok (), reg) := by
  simp [CircuitBreakerRegistry.check_agent, h]

theorem c10_unknown_agent_allowed_witness :
    emptyRegistryEx.check_agent 42 0 = (.ok (), emptyRegistryEx) :=
  c10_unknown_agent_allowed emptyRegistryEx 42 0 rfl

theorem applyObservation_dimension (sqrtFn : Nat → ℚ) (rep : AgentReputation)
    (dim : ReputationDimension) (v : ℚ) (ts : Int) :
    (applyObservation sqrtFn rep dim v ts).dimension dim =
      { rep.dimension dim with
        score := clampQ (adaptive_alpha sqrtFn rep.total_tasks * clampQ v 0 1 +
          (1 - adaptive_alpha sqrtFn rep.total_tasks) * (rep.dimension dim).score) 0 1,
        observations := (rep.dimension dim).observations + 1,
        last_updated := ts } := by
  cases dim <;> rfl

theorem applyObservation_total (sqrtFn : Nat → ℚ) (rep : AgentReputation)
    (dim : ReputationDimension) (v : ℚ) (ts : Int) :
    (applyObservation sqrtFn rep dim v ts).total_tasks = rep.total_tasks + 1 := by
  cases dim <;> rfl

theorem clampQ_nonneg (x : ℚ) : 0 ≤ clampQ x 0 1 := by
  unfold clampQ
  split_ifs <;> linarith

theorem clampQ_le_one (x : ℚ) : clampQ x 0 1 ≤ 1 := by
  unfold clampQ
  split_ifs <;> linarith

theorem clampQ_of_mem (x : ℚ) (h1 : 0 ≤ x) (h2 : x ≤ 1) : clampQ x 0 1 = x := by
  unfold clampQ
  split_ifs <;> linarith

/-- C4: each observation updates the dimension score to
`clamp(alpha * clamp(v,0,1) + (1-alpha) * score, 0, 1)` with
`alpha = 1/(1 + sqrt(total_tasks))` taken before the increment, bumps
the dimension's observation count and `total_tasks` by one (so alpha
decays across all of an agent's observations, whatever the dimension),
keeps the post-update score inside [0,1], and makes the first
observation on a fresh agent yield exactly `v` for `v ∈ [0,1]`. -/
theorem c4_reputation_ema_update (sqrtFn : Nat → ℚ) (_hpos : ∀ n, 0 ≤ sqrtFn n)
    (h0 : sqrtFn 0 = 0) :
    (∀ (rep : AgentReputation) (dim : ReputationDimension) (v : ℚ) (ts : Int),
      ((applyObservation sqrtFn rep dim v ts).dimension dim).score =
        clampQ (adaptive_alpha sqrtFn rep.total_tasks * clampQ v 0 1 +
          (1 - adaptive_alpha sqrtFn rep.total_tasks) * (rep.dimension dim).score)
          0 1 ∧
      0 ≤ ((applyObservation sqrtFn rep dim v ts).dimension dim).score ∧
      ((applyObservation sqrtFn rep dim v ts).dimension dim).score ≤ 1 ∧
      ((applyObservation sqrtFn rep dim v ts).dimension dim).observations =
        (rep.dimension dim).observations + 1 ∧
      (applyObservation sqrtFn rep dim v ts).total_tasks = rep.total_tasks + 1) ∧
    (∀ (aid : Nat) (now : Int) (dim : ReputationDimension) (v : ℚ) (ts : Int),
      0 ≤ v → v ≤ 1 →
      ((applyObservation sqrtFn (AgentReputation.new aid now) dim v ts).dimension
        dim).score = v) := by
  constructor
  · intro rep dim v ts
    rw [applyObservation_dimension]
    exact ⟨rfl, clampQ_nonneg _, clampQ_le_one _, rfl,
      applyObservation_total sqrtFn rep dim v ts⟩
  · intro aid now dim v ts hv0 hv1
    rw [applyObservation_dimension]
    have halpha : adaptive_alpha sqrtFn (AgentReputation.new aid now).total_tasks = 1 := by
      unfold adaptive_alpha
      rw [show (AgentReputation.new aid now).total_tasks = 0 from rfl, h0]
      norm_num
    have hsc : ((AgentReputation.new aid now).dimension dim).score = 0.5 := by
      cases dim <;> rfl
    have harg : adaptive_alpha sqrtFn (AgentReputation.new aid now).total_tasks *
        clampQ v 0 1 +
        (1 - adaptive_alpha sqrtFn (AgentReputation.new aid now).total_tasks) *
          ((AgentReputation.new aid now).dimension dim).score = v := by
      rw [halpha, hsc, clampQ_of_mem v hv0 hv1]
      ring
    show clampQ _ 0 1 = v
    rw [harg, clampQ_of_mem v hv0 hv1]

theorem c4_reputation_ema_update_witness :
    ((applyObservation natSqrtQ (AgentReputation.new 5 0) .Quality 0.9 3).dimension
        .Quality).score = 0.9 ∧
      (applyObservation natSqrtQ (AgentReputation.new 5 0) .Quality 0.9 3).total_tasks
        = 1 := by
  have h := c4_reputation_ema_update natSqrtQ
    (by
      intro n
      unfold natSqrtQ
      exact Nat.cast_nonneg _)
    (by norm_num [natSqrtQ])
  exact ⟨h.2 5 0 .Quality 0.9 3 (by norm_num) (by norm_num),
    (h.1 (AgentReputation.new 5 0) .Quality 0.9 3).2.2.2.2⟩

theorem updateReputation_scores {L : Type} (lm : LedgerModel L) (sqrtFn : Nat → ℚ)
    (st : EngineState L) (obs : ReputationObservation) (entry_id : Nat) (now : Int) :
    ((updateReputation lm sqrtFn st obs entry_id now).2).scores =
      (mutateScores sqrtFn st.scores obs now).1 := by
  simp only [updateReputation]
  split
  · rfl
  · split
    · rfl
    · rfl

/-- C9: `update_reputation` mutates the in-memory score map before
touching the ledger: whatever the ledger does, the post-call score map
is the mutated one; when `latest_hash` or `append` fails the call
returns `LedgerError` with the mutation already applied and not rolled
back, and a retried observation applies the EMA mutation a second
time. -/
theorem c9_update_reputation_not_atomic {L : Type} (lm : LedgerModel L)
    (sqrtFn : Nat → ℚ) (st : EngineState L) (obs : ReputationObservation)
    (entry_id : Nat) (now : Int) :
    ((updateReputation lm sqrtFn st obs entry_id now).2).scores =
      (mutateScores sqrtFn st.scores obs now).1 ∧
    (∀ e, lm.latestHash st.ledger = .error e →
      updateReputation lm sqrtFn st obs entry_id now =
        (.error (.LedgerError e),
          { scores := (mutateScores sqrtFn st.scores obs now).1,
            ledger := st.ledger })) ∧
    (∀ prev e, lm.latestHash st.ledger = .ok prev →
      lm.append st.ledger
          (LedgerEntry.new entry_id now .ReputationUpdated obs.agent_id obs.task_id
            (reputationPayload obs (mutateScores sqrtFn st.scores obs now).2) prev) =
        .error e →
      updateReputation lm sqrtFn st obs entry_id now =
        (.error (.LedgerError e),
          { scores := (mutateScores sqrtFn st.scores obs now).1,
            ledger := st.ledger })) ∧
    (∀ (lm2 : LedgerModel L) (entry_id2 : Nat) (now2 : Int),
      ((updateReputation lm2 sqrtFn
          (updateReputation lm sqrtFn st obs entry_id now).2 obs entry_id2
          now2).2).scores =
        (mutateScores sqrtFn (mutateScores sqrtFn st.scores obs now).1 obs
          now2).1) := by
  refine ⟨updateReputation_scores lm sqrtFn st obs entry_id now, ?_, ?_, ?_⟩
  · intro e he
    simp only [updateReputation, he]
  · intro prev e hlh happ
    simp only [updateReputation, hlh, happ]
  · intro lm2 entry_id2 now2
    rw [updateReputation_scores lm2 sqrtFn _ obs entry_id2 now2,
      updateReputation_scores lm sqrtFn st obs entry_id now]

theorem c9_update_reputation_not_atomic_witness :
    updateReputation failLedgerModel natSqrtQ engineStateEx obsC9Ex 0 2 =
      (.error (.LedgerError "disk full"),
        { scores := (mutateScores natSqrtQ engineStateEx.scores obsC9Ex 2).1,
          ledger := () }) :=
  (c9_update_reputation_not_atomic failLedgerModel natSqrtQ engineStateEx obsC9Ex
    0 2).2.1 "disk full" rfl

theorem filter_total_orderedInsert (t : ℚ) (a : ScoredBid) (l : List ScoredBid) :
    (List.orderedInsert bidGE a l).filter (fun sb => decide (sb.total_score = t)) =
      (a :: l).filter (fun sb => decide (sb.total_score = t)) := by
  induction l with
  | nil => rfl
  | cons b l ih =>
      by_cases hab : bidGE a b
      · rw [List.orderedInsert, if_pos hab]
      · rw [List.orderedInsert, if_neg hab]
        by_cases hb : b.total_score = t
        · have ha : ¬ (a.total_score = t) := fun h => hab (le_of_eq (hb.trans h.symm))
          simp [List.filter_cons, hb, ha, ih]
        · simp [List.filter_cons, hb, ih]

theorem filter_total_insertionSort (t : ℚ) (l : List ScoredBid) :
    (List.insertionSort bidGE l).filter (fun sb => decide (sb.total_score = t)) =
      l.filter (fun sb => decide (sb.total_score = t)) := by
  induction l with
  | nil => rfl
  | cons a l ih =>
      rw [List.insertionSort, filter_total_orderedInsert]
      simp [List.filter_cons, ih]

/-- C6: `BidEvaluator::evaluate` drops exactly the bids over budget,
scores each kept bid as `total = w_cost * cost_score + w_quality *
q(agent) + w_confidence * confidence` (with `cost_score = 1 -
cost/max_cost` when `max_cost > 0`, else 0), and returns the scored
bids sorted non-increasing by total score with the sort stable on ties
(bids of equal total keep their input order); the default weights are
0.4 / 0.4 / 0.2. -/
theorem c6_bid_evaluation (ev : BidEvaluator) (bids : List Bid) (max_cost : ℚ)
    (q : Nat → ℚ) :
    (ev.evaluate bids max_cost q).Perm
        ((bids.filter (fun b => decide (b.proposed_cost ≤ max_cost))).map
          (scoreBid ev max_cost q)) ∧
    (ev.evaluate bids max_cost q).Sorted
        (fun a b => b.total_score ≤ a.total_score) ∧
    (∀ t : ℚ,
      (ev.evaluate bids max_cost q).filter (fun sb => decide (sb.total_score = t)) =
        ((bids.filter (fun b => decide (b.proposed_cost ≤ max_cost))).map
          (scoreBid ev max_cost q)).filter (fun sb => decide (sb.total_score = t))) ∧
    (∀ sb ∈ ev.evaluate bids max_cost q,
      sb.bid.proposed_cost ≤ max_cost ∧
      sb.total_score = ev.cost_weight * sb.cost_score +
        ev.quality_weight * sb.quality_score +
        ev.confidence_weight * sb.confidence_component ∧
      sb.cost_score = (if max_cost > 0 then 1 - sb.bid.proposed_cost / max_cost else 0) ∧
      sb.quality_score = q sb.bid.agent_id ∧
      sb.confidence_component = sb.bid.confidence_score) ∧
    BidEvaluator.default =
      { cost_weight := 0.4, quality_weight := 0.4, confidence_weight := 0.2 } := by
  refine ⟨List.perm_insertionSort bidGE _, List.sorted_insertionSort bidGE _, ?_, ?_, rfl⟩
  · intro t
    exact filter_total_insertionSort t _
  · intro sb hsb
    rw [BidEvaluator.evaluate, List.mem_insertionSort] at hsb
    rcases List.mem_map.1 hsb with ⟨b, hbf, rfl⟩
    rcases List.mem_filter.1 hbf with ⟨_, hcost⟩
    exact ⟨of_decide_eq_true hcost, rfl, rfl, rfl, rfl⟩

theorem c6_bid_evaluation_witness :
    scoreBid BidEvaluator.default 100 qualityEx bidCheaperEx ∈
        BidEvaluator.default.evaluate [bidCheapEx, bidCheaperEx, bidOverEx] 100
          qualityEx ∧
      (scoreBid BidEvaluator.default 100 qualityEx bidCheaperEx).bid.proposed_cost
        ≤ 100 := by
  have hthm := c6_bid_evaluation BidEvaluator.default
    [bidCheapEx, bidCheaperEx, bidOverEx] 100 qualityEx
  have hfilter : [bidCheapEx, bidCheaperEx, bidOverEx].filter
      (fun b => decide (b.proposed_cost ≤ (100 : ℚ))) =
        [bidCheapEx, bidCheaperEx] := by
    norm_num [List.filter, bidCheapEx, bidCheaperEx, bidOverEx]
  have hmem : scoreBid BidEvaluator.default 100 qualityEx bidCheaperEx ∈
      BidEvaluator.default.evaluate [bidCheapEx, bidCheaperEx, bidOverEx] 100
        qualityEx := by
    apply hthm.1.mem_iff.2
    rw [hfilter]
    exact List.mem_map_of_mem _ (by simp)
  exact ⟨hmem, (hthm.2.2.2.1 _ hmem).1⟩

/-- C2: `TaskState::transition` agrees with the fourteen-row transition
table of spec section 4.1: it returns `Ok target` exactly on the pairs
in the table (with the table's target), and
`Err (InvalidStateTransition from event)` on every other pair. -/
theorem c2_transition_matches_spec_table :
    ∀ (s : TaskState) (e : TaskEvent),
      TaskState.transition s e =
        match spec41Lookup s e with
        | some t => .ok t
        | none => .error (.InvalidStateTransition s e) := by
  intro s e
  cases s <;> cases e <;> rfl

end Panopticon
